import Mathlib

/-!
Verification of the in-memory vector store, clustering engine and RAG
pipeline of the repository (src/05-vector-stores.ts and the RAG module
imported by the tests as src/04-rag-system.ts).

Modelling conventions (shallow embedding):
* JS numbers are modelled by `ℚ`.  `Math.sqrt` is modelled by `sqrtQ`
  (integer floor square roots on numerator and denominator).  Every
  universally quantified theorem below is independent of the values
  `sqrtQ` takes; every concrete evaluation (witnesses and
  counterexamples) is instantiated so that each argument `sqrtQ` is
  applied to during that evaluation is the square of a rational
  (0, 1, 25 and 20736/21025 are the arguments that occur), on which
  `sqrtQ` coincides with the real square root — so along those runs the
  model computes in exact real arithmetic and takes the same branches
  (best-centroid comparisons, the 0.99 convergence test) as the
  program.
* Division is the total rational division of Lean (`x / 0 = 0`).  In
  JavaScript `0 / 0` is `NaN`; the only place this matters (a zero-norm
  vector) is flagged in the comments of the theorems concerned.
* `Array.prototype.sort` with the comparator
  `(a, b) => b.similarity - a.similarity` is (per ES2019) a stable sort
  in non-increasing order of `similarity`; it is modelled by
  `List.insertionSort` with the relation `sim b ≤ sim a`, which is the
  stable non-increasing sort.
* The ambient `Math.random()` stream consumed by `cluster` is modelled
  by an explicit argument `draws : ℕ → ℕ`; `Math.floor(Math.random()*n)`
  for the i-th draw is modelled as `draws i % n`, which like the
  original always lies in `[0, n)` for `n ≥ 1`.
* A JS metadata object is modelled as an association list whose
  observable semantics is `List.lookup` (first binding wins); the object
  spread `{ ...metadata, text }` is modelled by prepending the binding
  `("text", text)`, which shadows any caller-supplied binding.
* The `TypeError` thrown by `cluster` when `numClusters = 0` and the
  store is non-empty (`clusters[0].push` on `undefined`) is modelled by
  `Option`: `cluster` returns `none` exactly there.
-/

/-- A stored record of `InMemoryVectorStore`:
`{ id: string; vector: number[]; metadata: any }`. -/
structure Entry where
  id : String
  vector : List ℚ
  metadata : List (String × String)
deriving DecidableEq

/- The arithmetic of `ℚ` is `@[irreducible]` in Mathlib; re-open it so
that concrete instances of the theorems evaluate by `decide`. -/
unseal Rat.add Rat.mul Rat.inv Rat.sub

/-- Binary search step for the floor square root, on the invariant
interval `lo² ≤ n < hi²`; the fuel only bounds the recursion and is
never exhausted before the interval closes. -/
def natSqrtAux (n : ℕ) : ℕ → ℕ → ℕ → ℕ
  | 0, lo, _ => lo
  | fuel + 1, lo, hi =>
      if hi ≤ lo + 1 then lo
      else
        if ((lo + hi) / 2) * ((lo + hi) / 2) ≤ n then
          natSqrtAux n fuel ((lo + hi) / 2) hi
        else
          natSqrtAux n fuel lo ((lo + hi) / 2)

/-- Floor square root (kernel-reducible in logarithmically many
steps). -/
def natSqrt (n : ℕ) : ℕ := natSqrtAux n (n + 2) 0 (n + 1)

/-- Model of `Math.sqrt` on rationals: floor square root of the
numerator over floor square root of the denominator.  Exact on perfect
squares; no theorem below depends on its values elsewhere. -/
def sqrtQ (q : ℚ) : ℚ := (natSqrt q.num.toNat : ℚ) / (natSqrt q.den : ℚ)

/-- Model of `a.reduce((sum, ai, i) => sum + ai * b[i], 0)`.  For vectors of
equal length this is the dot product; the model truncates at the
shorter vector (in JS a longer `a` would poison the sum with `NaN`;
no claim evaluates that case). -/
def dotProduct (a b : List ℚ) : ℚ := (List.zipWith (· * ·) a b).sum

/-- Model of `Math.sqrt(a.reduce((sum, ai) => sum + ai * ai, 0))`. -/
def magnitude (a : List ℚ) : ℚ := sqrtQ (dotProduct a a)

/-- Model of `InMemoryVectorStore.cosineSimilarity` (the `SimpleRAG` class
contains a verbatim copy): `dotProduct / (magnitudeA * magnitudeB)`. -/
def cosineSimilarity (a b : List ℚ) : ℚ :=
  dotProduct a b / (magnitude a * magnitude b)

/-- The stable non-increasing sort by a similarity projection `f`,
modelling `sort((a, b) => b.similarity - a.similarity)` (ES2019 sorts
are stable). -/
def sortBySimDesc {α : Type} (f : α → ℚ) (l : List α) : List α :=
  List.insertionSort (fun a b => f b ≤ f a) l

/-- Model of `InMemoryVectorStore.add`: embeds the text and pushes
`{ id, vector, metadata: { ...metadata, text } }`.  The spread is
modelled by prepending the `"text"` binding (first lookup wins). -/
def InMemoryVectorStore.add (embed : String → List ℚ) (s : List Entry)
    (id text : String) (metadata : List (String × String)) : List Entry :=
  s ++ [{ id := id, vector := embed text, metadata := ("text", text) :: metadata }]

/-- A search result: `{ ...item, similarity }`. -/
structure SearchResult where
  id : String
  vector : List ℚ
  metadata : List (String × String)
  similarity : ℚ
deriving DecidableEq

/-- The intermediate `similarities` list of `InMemoryVectorStore.search`:
every stored item, in store order, with its similarity to the query. -/
def InMemoryVectorStore.scored (embed : String → List ℚ) (s : List Entry)
    (query : String) : List SearchResult :=
  s.map (fun item =>
    { id := item.id, vector := item.vector, metadata := item.metadata,
      similarity := cosineSimilarity (embed query) item.vector })

/-- Model of `InMemoryVectorStore.search`: score every entry, stable-sort by
non-increasing similarity, `slice(0, topK)`. -/
def InMemoryVectorStore.search (embed : String → List ℚ) (s : List Entry)
    (query : String) (topK : ℕ) : List SearchResult :=
  (sortBySimDesc (fun r => r.similarity) (InMemoryVectorStore.scored embed s query)).take topK

/-- One step of the best-centroid scan of the assignment loop of `cluster`:
`if (similarity > bestSimilarity) { bestSimilarity = similarity; bestCluster = i }`,
walking the centroid list with its index. -/
def bestClusterAux (v : List ℚ) : List (List ℚ) → ℕ → ℕ × ℚ → ℕ × ℚ
  | [], _, best => best
  | c :: rest, i, best =>
      bestClusterAux v rest (i + 1)
        (if cosineSimilarity v c > best.2 then (i, cosineSimilarity v c) else best)

/-- The cluster index a vector is assigned to: the first centroid of
maximal cosine similarity, starting from `bestCluster = 0`,
`bestSimilarity = -1`. -/
def bestCluster (cents : List (List ℚ)) (v : List ℚ) : ℕ :=
  (bestClusterAux v cents 0 (0, -1)).1

/-- The assignment pass: `clusters[i]` collects, in store order, the
entries whose best centroid is `i` (the imperative loop pushes each
entry into exactly `clusters[bestCluster]`, and `clusters` is
`Array(numClusters)`). -/
def assignClusters (s : List Entry) (numClusters : ℕ)
    (cents : List (List ℚ)) : List (List Entry) :=
  (List.range numClusters).map
    (fun i => s.filter (fun e => bestCluster cents e.vector == i))

/-- Coordinatewise accumulation `newCentroid[j] += vector.vector[j]`.
For the dimension-consistent stores of the repository both lists have
equal length; a longer vector would poison the JS sum with `NaN`, which
the model replaces by 0-extension (no theorem below evaluates that
case). -/
def addVec (acc v : List ℚ) : List ℚ :=
  (List.range (max acc.length v.length)).map (fun j => acc.getD j 0 + v.getD j 0)

/-- The recomputed centroid of a cluster: coordinatewise sum of the
member vectors into a zero vector whose length is that of the old centroid,
divided by the member count. -/
def meanVec (cl : List Entry) (old : List ℚ) : List ℚ :=
  (cl.foldl (fun acc e => addVec acc e.vector) (List.replicate old.length 0)).map
    (fun x => x / (cl.length : ℚ))

/-- The centroid-update pass.  An empty cluster keeps its centroid and
does not raise the `changed` flag (`continue`); a non-empty cluster
replaces its centroid by the mean and raises `changed` when the old and
the new centroid have cosine similarity `< 0.99`. -/
def updateCentroids (clusters : List (List Entry)) (cents : List (List ℚ)) :
    List (List ℚ) × Bool :=
  ((clusters.zip cents).map fun p => if p.1.length = 0 then p.2 else meanVec p.1 p.2,
   (clusters.zip cents).any fun p =>
     p.1.length != 0 && decide (cosineSimilarity p.2 (meanVec p.1 p.2) < 99 / 100))

/-- One body execution of the `while` loop: assign, then update. -/
def kstep (s : List Entry) (numClusters : ℕ) (cents : List (List ℚ)) :
    List (List Entry) × List (List ℚ) × Bool :=
  let clusters := assignClusters s numClusters cents
  (clusters, updateCentroids clusters cents)

/-- The `while (iterations < maxIterations)` loop with explicit fuel,
returning the final `(clusters, centroids)` state together with the
number of body executions performed; the loop is left as soon as a pass
raises no `changed` flag, and that final pass is counted. -/
def krun (s : List Entry) (numClusters : ℕ) :
    ℕ → List (List Entry) × List (List ℚ) →
    (List (List Entry) × List (List ℚ)) × ℕ
  | 0, st => (st, 0)
  | n + 1, st =>
      let r := kstep s numClusters st.2
      if r.2.2 = true then
        let rest := krun s numClusters n (r.1, r.2.1)
        (rest.1, rest.2 + 1)
      else ((r.1, r.2.1), 1)

/-- Placeholder entry for `List.getD`; unreachable, since the index
`draws i % s.length` is always in range for a non-empty store. -/
def defaultEntry : Entry := { id := "", vector := [], metadata := [] }

instance : Inhabited Entry := ⟨defaultEntry⟩

/-- Random centroid initialization: the i-th draw of the ambient
`Math.random` stream yields the index `Math.floor(Math.random() * length)`,
modelled as `draws i % length`; the vector of the chosen entry is copied. -/
def initCentroids (s : List Entry) (numClusters : ℕ) (draws : ℕ → ℕ) :
    List (List ℚ) :=
  (List.range numClusters).map
    (fun i => (s.getD (draws i % s.length) defaultEntry).vector)

/-- Model of `InMemoryVectorStore.cluster`.  Returns `none` exactly where the JS
method throws a `TypeError` (`numClusters = 0` with a non-empty store
makes `clusters[0].push` dereference `undefined`); otherwise `some` of
the non-empty clusters of the final pass, or `some [s]` on the
short-circuit path `length < numClusters`. -/
def InMemoryVectorStore.cluster (s : List Entry) (numClusters : ℕ)
    (draws : ℕ → ℕ) : Option (List (List Entry)) :=
  if s.length < numClusters then some [s]
  else if numClusters = 0 ∧ s.length ≠ 0 then none
  else
    some ((krun s numClusters 100 ([], initCentroids s numClusters draws)).1.1.filter
      (fun cl => cl.length != 0))

/-- A document of `SimpleRAG`: `{ id, content, metadata? }`. -/
structure RagDocument where
  id : String
  content : String
  metadata : Option (List (String × String))
deriving DecidableEq

/-- An element of the `similarities` list of `SimpleRAG.search`:
`{ index, similarity, document }`. -/
structure RagHit where
  index : ℕ
  similarity : ℚ
  document : RagDocument
deriving DecidableEq

/-- Placeholder for `documents[index]`; unreachable because `SimpleRAG`
keeps `documents` and `embeddings` parallel. -/
def defaultRagDocument : RagDocument := { id := "", content := "", metadata := none }

/-- Model of `SimpleRAG.search`: score every stored embedding against the query
embedding (pairing index, similarity and `documents[index]`),
stable-sort by non-increasing similarity, `slice(0, topK)`. -/
def SimpleRAG.search (embed : String → List ℚ) (documents : List RagDocument)
    (embeddings : List (List ℚ)) (query : String) (topK : ℕ) : List RagHit :=
  (sortBySimDesc (fun h => h.similarity)
    (embeddings.enum.map (fun p =>
      { index := p.1, similarity := cosineSimilarity (embed query) p.2,
        document := documents.getD p.1 defaultRagDocument }))).take topK

/-- The prompt template of `SimpleRAG.query` (a JS template literal
interpolating the context block and the question). -/
def SimpleRAG.prompt (context question : String) : String :=
  "Answer the following question based on the provided context. If the answer is not in the context, say so.\n\nContext:\n"
    ++ context ++ "\n\nQuestion: " ++ question ++ "\n\nAnswer:"

/-- The value returned by `SimpleRAG.query`, instrumented with the list
of prompts passed to the generation provider (`ollama.chat` is the one
and only generation call site of `query`, executed once per call). -/
structure RagAnswer where
  answer : String
  sources : List (String × ℚ)
  generationCalls : List String
deriving DecidableEq

/-- Model of `SimpleRAG.query`: retrieve `topK` documents, join their contents
with a blank line in ranked order, build the prompt, call the
generation provider once, and pair the generated answer with the
`{id, similarity}` of each source in ranked order. -/
def SimpleRAG.query (embed : String → List ℚ) (gen : String → String)
    (documents : List RagDocument) (embeddings : List (List ℚ))
    (question : String) (topK : ℕ) : RagAnswer :=
  let relevantDocs := SimpleRAG.search embed documents embeddings question topK
  let context := String.intercalate "\n\n" (relevantDocs.map (fun d => d.document.content))
  let p := SimpleRAG.prompt context question
  { answer := gen p,
    sources := relevantDocs.map (fun d => (d.document.id, d.similarity)),
    generationCalls := [p] }

/-! ### Concrete data used to instantiate the theorems -/

/-- A unit vector entry (id "a"). -/
def entryA : Entry := { id := "a", vector := [1, 0], metadata := [] }

/-- A unit vector entry (id "b"), orthogonal to `entryA`. -/
def entryB : Entry := { id := "b", vector := [0, 1], metadata := [] }

/-- A second entry carrying the vector of `entryB`, under id "c". -/
def entryC : Entry := { id := "c", vector := [0, 1], metadata := [] }

/-- A three-entry store in dimension 2. -/
def storeABC : List Entry := [entryA, entryB, entryC]

/-- A unit entry on the first axis (id "x"), used for the clustering
divergence example. -/
def entryX : Entry := { id := "x", vector := [1, 0], metadata := [] }

/-- A rational unit entry (id "y"): `[20447/21025, 4896/21025]` has
norm 1, its angle to `entryX` has cosine `20447/21025 ≈ 0.9725`, and —
the point of the construction — the half-angle cosine is exactly
`144/145 ≈ 0.9931 ≥ 0.99` with `(144/145)² = 20736/21025`, a square of
a rational, so the mean of the two vectors has a rational norm and
every similarity in the traces below is computed exactly. -/
def entryY : Entry :=
  { id := "y", vector := [20447/21025, 4896/21025], metadata := [] }

/-- The two-entry store on which the partition returned by `cluster`
depends on the random draws. -/
def storeXY : List Entry := [entryX, entryY]

/-- An all-zero (degenerate, zero-norm) entry. -/
def entryZero : Entry := { id := "z", vector := [0, 0], metadata := [] }

/-- An embedding provider producing three-dimensional vectors. -/
def embedDim3 : String → List ℚ := fun _ => [1, 2, 3]

/-- An embedding provider producing the two-dimensional unit vector. -/
def embedUnit : String → List ℚ := fun _ => [1, 0]

/-! ### Helper lemmas about the stable descending sort -/

/-- The sort permutes its input. -/
theorem sortBySimDesc_perm {α : Type} (f : α → ℚ) (l : List α) :
    List.Perm (sortBySimDesc f l) l :=
  List.perm_insertionSort _ l

theorem sortBySimDesc_length {α : Type} (f : α → ℚ) (l : List α) :
    (sortBySimDesc f l).length = l.length :=
  (sortBySimDesc_perm f l).length_eq

/-- The sort output is in non-increasing order of `f`. -/
theorem sortBySimDesc_pairwise {α : Type} (f : α → ℚ) (l : List α) :
    List.Pairwise (fun a b => f b ≤ f a) (sortBySimDesc f l) := by
  haveI : IsTotal α (fun a b => f b ≤ f a) := ⟨fun a b => (le_total (f b) (f a)).imp id id⟩
  haveI : IsTrans α (fun a b => f b ≤ f a) := ⟨fun _ _ _ h1 h2 => le_trans h2 h1⟩
  exact List.sorted_insertionSort _ l

theorem filter_sim_orderedInsert_eq {α : Type} (f : α → ℚ) (x : ℚ) (a : α)
    (l : List α) (ha : f a = x) :
    (List.orderedInsert (fun u v => f v ≤ f u) a l).filter (fun r => f r == x) =
      a :: l.filter (fun r => f r == x) := by
  induction l with
  | nil => simp [List.orderedInsert, ha]
  | cons b t ih =>
    by_cases h : f b ≤ f a
    · simp only [List.orderedInsert, if_pos h]
      rw [List.filter_cons, List.filter_cons]
      simp [ha]
    · have hb : (f b == x) = false := by
        rw [beq_eq_false_iff_ne]
        intro hbx
        rw [ha] at h
        rw [hbx] at h
        exact h le_rfl
      simp only [List.orderedInsert, if_neg h]
      rw [List.filter_cons, hb, ih, List.filter_cons, hb]
      simp

theorem filter_sim_orderedInsert_ne {α : Type} (f : α → ℚ) (x : ℚ) (a : α)
    (l : List α) (ha : f a ≠ x) :
    (List.orderedInsert (fun u v => f v ≤ f u) a l).filter (fun r => f r == x) =
      l.filter (fun r => f r == x) := by
  induction l with
  | nil => simp [List.orderedInsert, ha]
  | cons b t ih =>
    by_cases h : f b ≤ f a
    · simp only [List.orderedInsert, if_pos h]
      rw [List.filter_cons]
      simp [ha]
    · simp only [List.orderedInsert, if_neg h]
      rw [List.filter_cons, List.filter_cons, ih]

/-- Stability of the sort: for each similarity value, the results with
that exact value appear in the same relative (insertion) order as in
the input. -/
theorem sortBySimDesc_filter_sim {α : Type} (f : α → ℚ) (x : ℚ) (l : List α) :
    (sortBySimDesc f l).filter (fun r => f r == x) = l.filter (fun r => f r == x) := by
  induction l with
  | nil => rfl
  | cons a t ih =>
    unfold sortBySimDesc at ih ⊢
    simp only [List.insertionSort]
    by_cases ha : f a = x
    · rw [filter_sim_orderedInsert_eq f x a _ ha, ih, List.filter_cons]
      simp [ha]
    · rw [filter_sim_orderedInsert_ne f x a _ ha, ih, List.filter_cons]
      simp [ha]

/-! ### Helper lemmas about `search` -/

theorem search_length (embed : String → List ℚ) (s : List Entry)
    (q : String) (k : ℕ) :
    (InMemoryVectorStore.search embed s q k).length = min k s.length := by
  unfold InMemoryVectorStore.search
  rw [List.length_take, sortBySimDesc_length]
  simp [InMemoryVectorStore.scored]

theorem search_pairwise (embed : String → List ℚ) (s : List Entry)
    (q : String) (k : ℕ) :
    List.Pairwise (fun a b : SearchResult => b.similarity ≤ a.similarity)
      (InMemoryVectorStore.search embed s q k) :=
  (sortBySimDesc_pairwise (fun r : SearchResult => r.similarity) _).sublist
    (List.take_sublist _ _)

/-- Every search result is a stored entry decorated with its
similarity. -/
theorem mem_search_imp (embed : String → List ℚ) (s : List Entry)
    (q : String) (k : ℕ) (r : SearchResult)
    (hr : r ∈ InMemoryVectorStore.search embed s q k) :
    ∃ e ∈ s, r.id = e.id ∧ r.vector = e.vector ∧ r.metadata = e.metadata ∧
      r.similarity = cosineSimilarity (embed q) e.vector := by
  have h1 : r ∈ sortBySimDesc (fun r : SearchResult => r.similarity)
      (InMemoryVectorStore.scored embed s q) :=
    (List.take_sublist _ _).subset hr
  have h2 : r ∈ InMemoryVectorStore.scored embed s q :=
    (sortBySimDesc_perm _ _).mem_iff.mp h1
  rcases List.mem_map.mp h2 with ⟨e, he, hre⟩
  subst hre
  exact ⟨e, he, rfl, rfl, rfl, rfl⟩

/-- Conversely, when `topK` covers the whole store every stored entry
appears among the results. -/
theorem entry_mem_search (embed : String → List ℚ) (s : List Entry)
    (q : String) (k : ℕ) (e : Entry) (he : e ∈ s) (hk : s.length ≤ k) :
    ∃ r ∈ InMemoryVectorStore.search embed s q k,
      r.id = e.id ∧ r.vector = e.vector ∧ r.metadata = e.metadata ∧
      r.similarity = cosineSimilarity (embed q) e.vector := by
  have hmem : (⟨e.id, e.vector, e.metadata, cosineSimilarity (embed q) e.vector⟩ :
      SearchResult) ∈ InMemoryVectorStore.scored embed s q :=
    List.mem_map.mpr ⟨e, he, rfl⟩
  have hlen : (sortBySimDesc (fun r : SearchResult => r.similarity)
      (InMemoryVectorStore.scored embed s q)).length ≤ k := by
    rw [sortBySimDesc_length]
    simpa [InMemoryVectorStore.scored] using hk
  have hsearch : InMemoryVectorStore.search embed s q k =
      sortBySimDesc (fun r : SearchResult => r.similarity)
        (InMemoryVectorStore.scored embed s q) :=
    List.take_of_length_le hlen
  rw [hsearch]
  exact ⟨_, (sortBySimDesc_perm _ _).mem_iff.mpr hmem, rfl, rfl, rfl, rfl⟩

/-! ### Helper lemmas about clustering -/

theorem bestClusterAux_lt (v : List ℚ) (cents : List (List ℚ)) :
    ∀ (i : ℕ) (best : ℕ × ℚ) (n : ℕ),
      best.1 < n → i + cents.length ≤ n → (bestClusterAux v cents i best).1 < n := by
  induction cents with
  | nil => intro i best n hb _; exact hb
  | cons c rest ih =>
    intro i best n hb hi
    have hi2 : i + 1 + rest.length ≤ n := by
      rw [List.length_cons] at hi
      omega
    simp only [bestClusterAux]
    refine ih (i + 1) _ n ?_ hi2
    by_cases h : cosineSimilarity v c > best.2
    · rw [if_pos h]
      show i < n
      omega
    · rw [if_neg h]
      exact hb

/-- The assigned cluster index is always a valid index into the
centroid list. -/
theorem bestCluster_lt (cents : List (List ℚ)) (v : List ℚ) (h : cents ≠ []) :
    bestCluster cents v < cents.length :=
  bestClusterAux_lt v cents 0 (0, -1) cents.length (List.length_pos.mpr h)
    (by omega)

theorem count_filter_eq {α : Type} [DecidableEq α] (p : α → Bool) (a : α)
    (l : List α) :
    (l.filter p).count a = if p a = true then l.count a else 0 := by
  induction l with
  | nil => simp
  | cons b t ih =>
    rw [List.filter_cons]
    by_cases hb : p b = true
    · rw [if_pos hb]
      by_cases hab : a = b
      · subst hab
        rw [List.count_cons_self, List.count_cons_self, ih, if_pos hb, if_pos hb]
      · rw [List.count_cons_of_ne hab, List.count_cons_of_ne hab, ih]
    · rw [if_neg hb, ih]
      by_cases hab : a = b
      · subst hab
        rw [if_neg hb, if_neg hb]
      · rw [List.count_cons_of_ne hab]

theorem sum_map_range_ite_zero (c j k : ℕ) (h : k ≤ j) :
    ((List.range k).map (fun i => if j = i then c else 0)).sum = 0 := by
  induction k with
  | zero => rfl
  | succ k ih =>
    rw [List.range_succ, List.map_append, List.sum_append, ih (by omega)]
    have : j ≠ k := by omega
    simp [this]

theorem sum_map_range_ite (c j k : ℕ) (h : j < k) :
    ((List.range k).map (fun i => if j = i then c else 0)).sum = c := by
  induction k with
  | zero => omega
  | succ k ih =>
    rw [List.range_succ, List.map_append, List.sum_append]
    by_cases hjk : j = k
    · subst hjk
      rw [sum_map_range_ite_zero c j j le_rfl]
      simp
    · rw [ih (by omega)]
      simp [hjk]

/-- The assignment pass distributes the stored entries over the
clusters without loss or duplication (as a multiset). -/
theorem assignClusters_flatten_perm (s : List Entry) (k : ℕ)
    (cents : List (List ℚ))
    (hbound : ∀ e ∈ s, bestCluster cents e.vector < k) :
    List.Perm (assignClusters s k cents).flatten s := by
  rw [List.perm_iff_count]
  intro e
  unfold assignClusters
  rw [List.count_flatten, List.map_map]
  have hmap :
      (List.map (List.count e ∘ fun i => s.filter
        (fun x => bestCluster cents x.vector == i)) (List.range k)) =
      (List.range k).map
        (fun i => if bestCluster cents e.vector = i then s.count e else 0) := by
    apply List.map_congr_left
    intro i _
    show (s.filter (fun x => bestCluster cents x.vector == i)).count e = _
    rw [count_filter_eq]
    by_cases hei : bestCluster cents e.vector = i
    · rw [if_pos (by simpa using hei), if_pos hei]
    · rw [if_neg (by simpa using hei), if_neg hei]
  rw [hmap]
  by_cases he : e ∈ s
  · rw [sum_map_range_ite _ _ _ (hbound e he)]
  · rw [List.count_eq_zero_of_not_mem he]
    simp

/-- Dropping the empty clusters does not change the flattened
contents. -/
theorem flatten_filter_length_ne_zero {α : Type} (L : List (List α)) :
    (L.filter (fun cl => cl.length != 0)).flatten = L.flatten := by
  induction L with
  | nil => rfl
  | cons cl L ih =>
    rw [List.filter_cons]
    by_cases h : cl.length = 0
    · have hnil : cl = [] := List.length_eq_zero.mp h
      subst hnil
      simpa using ih
    · have : (cl.length != 0) = true := by simpa using h
      rw [this]
      simp [ih]

theorem assignClusters_length (s : List Entry) (k : ℕ) (cents : List (List ℚ)) :
    (assignClusters s k cents).length = k := by
  unfold assignClusters
  rw [List.length_map, List.length_range]

theorem updateCentroids_fst_length (clusters : List (List Entry))
    (cents : List (List ℚ)) :
    (updateCentroids clusters cents).1.length = min clusters.length cents.length := by
  unfold updateCentroids
  rw [List.length_map, List.length_zip]

theorem initCentroids_length (s : List Entry) (k : ℕ) (draws : ℕ → ℕ) :
    (initCentroids s k draws).length = k := by
  unfold initCentroids
  rw [List.length_map, List.length_range]

theorem krun_count_le (s : List Entry) (k : ℕ) :
    ∀ (n : ℕ) (st : List (List Entry) × List (List ℚ)), (krun s k n st).2 ≤ n := by
  intro n
  induction n with
  | zero => intro st; exact le_rfl
  | succ n ih =>
    intro st
    simp only [krun]
    by_cases h : (kstep s k st.2).2.2 = true
    · rw [if_pos h]
      have := ih ((kstep s k st.2).1, (kstep s k st.2).2.1)
      omega
    · rw [if_neg h]
      omega

/-- The clusters returned by the loop always come from the assignment
pass against some centroid list of the invariant length. -/
theorem krun_clusters_shape (s : List Entry) (k : ℕ) :
    ∀ (n : ℕ) (st : List (List Entry) × List (List ℚ)), 1 ≤ n → st.2.length = k →
      ∃ cents : List (List ℚ), cents.length = k ∧
        (krun s k n st).1.1 = assignClusters s k cents := by
  intro n
  induction n with
  | zero => intro st h; omega
  | succ n ih =>
    intro st _ hst
    simp only [krun]
    by_cases h : (kstep s k st.2).2.2 = true
    · rw [if_pos h]
      rcases Nat.eq_zero_or_pos n with hn | hn
      · subst hn
        exact ⟨st.2, hst, rfl⟩
      · refine ih ((kstep s k st.2).1, (kstep s k st.2).2.1) hn ?_
        show (updateCentroids (assignClusters s k st.2) st.2).1.length = k
        rw [updateCentroids_fst_length, assignClusters_length, hst]
        omega
    · rw [if_neg h]
      exact ⟨st.2, hst, rfl⟩

theorem dotProduct_replicate_zero (a : List ℚ) (n : ℕ) :
    dotProduct a (List.replicate n 0) = 0 := by
  induction a generalizing n with
  | nil => rfl
  | cons x t ih =>
    cases n with
    | zero => rfl
    | succ n =>
      rw [List.replicate_succ]
      unfold dotProduct at ih ⊢
      rw [List.zipWith_cons_cons, List.sum_cons, ih n]
      simp

/-- In the exact rational model a zero vector scores similarity `0`
(in IEEE arithmetic the same division produces `NaN`). -/
theorem cosineSimilarity_replicate_zero (a : List ℚ) (n : ℕ) :
    cosineSimilarity a (List.replicate n 0) = 0 := by
  unfold cosineSimilarity
  rw [dotProduct_replicate_zero]
  exact zero_div _

theorem dotProduct_comm (a b : List ℚ) : dotProduct a b = dotProduct b a := by
  unfold dotProduct
  rw [List.zipWith_comm_of_comm (· * ·) (fun x y => mul_comm x y)]

theorem ragSearch_pairwise (embed : String → List ℚ) (docs : List RagDocument)
    (embs : List (List ℚ)) (q : String) (k : ℕ) :
    List.Pairwise (fun a b : RagHit => b.similarity ≤ a.similarity)
      (SimpleRAG.search embed docs embs q k) :=
  (sortBySimDesc_pairwise (fun h : RagHit => h.similarity) _).sublist
    (List.take_sublist _ _)

theorem initCentroids_congr (s : List Entry) (k : ℕ) (d1 d2 : ℕ → ℕ)
    (h : ∀ i, i < k → d1 i % s.length = d2 i % s.length) :
    initCentroids s k d1 = initCentroids s k d2 := by
  unfold initCentroids
  apply List.map_congr_left
  intro i hi
  rw [h i (List.mem_range.mp hi)]

/-! ### The claims -/

/-- C1: for every store, query and non-negative `topK`,
`InMemoryVectorStore.search` returns results sorted in non-increasing
order of cosine similarity, of length exactly `min topK (store size)`
(hence at most both), with similarity ties left in original insertion
order (stability of the sort over the in-order `scored` list), and it
returns `[]` on the empty store without any error path. -/
theorem C1_search_sorted_clamped_stable (embed : String → List ℚ)
    (s : List Entry) (q : String) (k : ℕ) :
    List.Pairwise (fun a b : SearchResult => b.similarity ≤ a.similarity)
        (InMemoryVectorStore.search embed s q k) ∧
      (InMemoryVectorStore.search embed s q k).length = min k s.length ∧
      (∀ x : ℚ,
        (sortBySimDesc (fun r : SearchResult => r.similarity)
            (InMemoryVectorStore.scored embed s q)).filter
            (fun r => r.similarity == x) =
          (InMemoryVectorStore.scored embed s q).filter
            (fun r => r.similarity == x)) ∧
      (s = [] → InMemoryVectorStore.search embed s q k = []) :=
  ⟨search_pairwise embed s q k, search_length embed s q k,
   fun x => sortBySimDesc_filter_sim (fun r : SearchResult => r.similarity) x _,
   fun hs => by
     subst hs
     simp [InMemoryVectorStore.search, InMemoryVectorStore.scored, sortBySimDesc]⟩

/-- Witness for C1 at a concrete store and query. -/
theorem C1_witness :
    (InMemoryVectorStore.search embedUnit storeABC "q" 2).length =
        min 2 storeABC.length ∧
      InMemoryVectorStore.search embedUnit ([] : List Entry) "q" 2 = [] :=
  ⟨(C1_search_sorted_clamped_stable embedUnit storeABC "q" 2).2.1,
   (C1_search_sorted_clamped_stable embedUnit [] "q" 2).2.2.2 rfl⟩

/-- C2 counterexample: against the claim, `add` of a 3-dimensional
embedding into a store whose established dimension is 2 does not fail
with `DimensionMismatch` (the method has no failure path at all) and
the store is changed: the entry is appended. -/
theorem C2_counterexample :
    InMemoryVectorStore.add embedDim3 [entryA] "b" "t" [] =
        [entryA, { id := "b", vector := [1, 2, 3], metadata := [("text", "t")] }] ∧
      (InMemoryVectorStore.add embedDim3 [entryA] "b" "t" []).length ≠
        ([entryA] : List Entry).length := by
  constructor
  · rfl
  · decide

/-- C2 amended: `add` performs no dimension check; even when the new
length of the embedding differs from the established dimension (the first
vector length of the first entry) the entry is appended unconditionally and the
store grows by one. -/
theorem C2_add_appends_despite_mismatch (embed : String → List ℚ)
    (s : List Entry) (id text : String) (m : List (String × String))
    (h : s ≠ []) (hdim : (embed text).length ≠ s.headI.vector.length) :
    InMemoryVectorStore.add embed s id text m =
        s ++ [{ id := id, vector := embed text, metadata := ("text", text) :: m }] ∧
      (InMemoryVectorStore.add embed s id text m).length = s.length + 1 := by
  refine ⟨rfl, ?_⟩
  unfold InMemoryVectorStore.add
  rw [List.length_append]
  rfl

/-- Witness for the amended C2. -/
theorem C2_witness :
    InMemoryVectorStore.add embedDim3 [entryA] "b" "t" [] =
        [entryA] ++ [{ id := "b", vector := [1, 2, 3], metadata := [("text", "t")] }] ∧
      (InMemoryVectorStore.add embedDim3 [entryA] "b" "t" []).length =
        ([entryA] : List Entry).length + 1 := by
  exact C2_add_appends_despite_mismatch embedDim3 [entryA] "b" "t" [] (by decide)
    (by decide)

/-- C3 counterexample: against the claim, `search` over a store that
contains the zero-norm entry `entryZero` does not fail with
`DegenerateVector`: it returns normally, scoring the degenerate entry
by the unchecked division (`NaN` in IEEE arithmetic, `0` in the exact
rational model) and including it in the results. -/
theorem C3_counterexample :
    InMemoryVectorStore.search embedUnit [entryZero, entryA] "q" 5 =
      [{ id := "a", vector := [1, 0], metadata := [], similarity := 1 },
       { id := "z", vector := [0, 0], metadata := [], similarity := 0 }] := by
  decide

/-- C3 amended: `search` never fails; every stored entry, including a
zero-norm one, appears among the results whenever `topK` covers the
store, the degenerate entry carrying the coerced similarity of the
total division (0 exactly; `NaN` in JS) instead of raising
`DegenerateVector`. -/
theorem C3_search_total_on_degenerate (embed : String → List ℚ)
    (s : List Entry) (q : String) (k : ℕ) (e : Entry) (n : ℕ)
    (he : e ∈ s) (hk : s.length ≤ k) (hz : e.vector = List.replicate n 0) :
    ∃ r ∈ InMemoryVectorStore.search embed s q k,
      r.id = e.id ∧ r.vector = e.vector ∧ r.similarity = 0 := by
  rcases entry_mem_search embed s q k e he hk with ⟨r, hr, hid, hvec, hmeta, hsim⟩
  refine ⟨r, hr, hid, hvec, ?_⟩
  rw [hsim, hz, cosineSimilarity_replicate_zero]

/-- Witness for the amended C3. -/
theorem C3_witness :
    ∃ r ∈ InMemoryVectorStore.search embedUnit [entryZero, entryA] "q" 5,
      r.id = entryZero.id ∧ r.vector = entryZero.vector ∧ r.similarity = 0 :=
  C3_search_total_on_degenerate embedUnit [entryZero, entryA] "q" 5 entryZero 2
    (by decide) (by decide) (by decide)

/-- C4: whenever `cluster` returns on a non-empty store, the returned
clusters partition the stored entries: flattening them is a
permutation of the store (so the union is everything and no entry is
duplicated across clusters), every returned cluster is non-empty, and
each cluster is a sublist of the store (members in insertion order). -/
theorem C4_cluster_partition (s : List Entry) (k : ℕ) (draws : ℕ → ℕ)
    (cs : List (List Entry)) (hs : s ≠ [])
    (hc : InMemoryVectorStore.cluster s k draws = some cs) :
    List.Perm cs.flatten s ∧ (∀ c ∈ cs, c ≠ []) ∧ (∀ c ∈ cs, c.Sublist s) := by
  unfold InMemoryVectorStore.cluster at hc
  by_cases hlt : s.length < k
  · rw [if_pos hlt] at hc
    injection hc with hc
    subst hc
    refine ⟨by simp, ?_, ?_⟩
    · intro c hcmem
      rw [List.mem_singleton] at hcmem
      rw [hcmem]
      exact hs
    · intro c hcmem
      rw [List.mem_singleton] at hcmem
      rw [hcmem]
  · rw [if_neg hlt] at hc
    by_cases hk : k = 0 ∧ s.length ≠ 0
    · rw [if_pos hk] at hc
      exact absurd hc (by simp)
    · rw [if_neg hk] at hc
      injection hc with hc
      have hk0 : k ≠ 0 := by
        intro h0
        exact hk ⟨h0, by
          have := List.length_pos.mpr hs
          omega⟩
      obtain ⟨cents, hcl, heq⟩ :=
        krun_clusters_shape s k 100 ([], initCentroids s k draws) (by omega)
          (initCentroids_length s k draws)
      rw [heq] at hc
      subst hc
      have hcne : cents ≠ [] := by
        intro hnil
        rw [hnil] at hcl
        exact hk0 hcl.symm
      have hbound : ∀ e ∈ s, bestCluster cents e.vector < k := by
        intro e he
        have hblt := bestCluster_lt cents e.vector hcne
        rw [hcl] at hblt
        exact hblt
      refine ⟨?_, ?_, ?_⟩
      · rw [flatten_filter_length_ne_zero]
        exact assignClusters_flatten_perm s k cents hbound
      · intro c hcmem
        have := List.of_mem_filter hcmem
        intro hnil
        subst hnil
        simp at this
      · intro c hcmem
        have hcmem2 := List.mem_of_mem_filter hcmem
        unfold assignClusters at hcmem2
        rcases List.mem_map.mp hcmem2 with ⟨i, _, hi⟩
        subst hi
        exact List.filter_sublist s

/-- Witness for C4 at the concrete three-entry store, two clusters. -/
theorem C4_witness :
    List.Perm ([[entryA], [entryB, entryC]] : List (List Entry)).flatten storeABC ∧
      (∀ c ∈ ([[entryA], [entryB, entryC]] : List (List Entry)), c ≠ []) ∧
      (∀ c ∈ ([[entryA], [entryB, entryC]] : List (List Entry)), c.Sublist storeABC) :=
  C4_cluster_partition storeABC 2 (fun i => i) [[entryA], [entryB, entryC]]
    (by decide) (by decide)

/-- C5: the centroid-refinement loop performs at most the fixed bound
of 100 body executions; it stops right after the first pass whose
update raises no `changed` flag; the flag stays unraised exactly when
every centroid with a non-empty cluster reaches cosine similarity
`0.99` to its recomputed value (all centroids simultaneously); and a
centroid whose cluster got zero entries is left unchanged by the
update round. -/
theorem C5_cluster_iteration_bound (s : List Entry) (k : ℕ) :
    (∀ st : List (List Entry) × List (List ℚ), (krun s k 100 st).2 ≤ 100) ∧
    (∀ (n : ℕ) (st : List (List Entry) × List (List ℚ)),
      (kstep s k st.2).2.2 = false →
      krun s k (n + 1) st = (((kstep s k st.2).1, (kstep s k st.2).2.1), 1)) ∧
    (∀ (clusters : List (List Entry)) (cents : List (List ℚ)),
      (updateCentroids clusters cents).2 = false ↔
        ∀ p ∈ clusters.zip cents, p.1.length ≠ 0 →
          99 / 100 ≤ cosineSimilarity p.2 (meanVec p.1 p.2)) ∧
    (∀ (clusters : List (List Entry)) (cents : List (List ℚ)) (i : ℕ),
      i < clusters.length → i < cents.length →
      (clusters.getD i []).length = 0 →
      (updateCentroids clusters cents).1.getD i [] = cents.getD i []) := by
  refine ⟨krun_count_le s k 100, ?_, ?_, ?_⟩
  · intro n st h
    simp [krun, h]
  · intro clusters cents
    unfold updateCentroids
    simp only [List.any_eq_false, Bool.and_eq_true, bne_iff_ne, ne_eq,
      decide_eq_true_eq, not_and, not_lt]
  · intro clusters cents i hi hi2 hlen
    have hizip : i < (clusters.zip cents).length := by
      rw [List.length_zip]
      omega
    have hci : clusters[i].length = 0 := by
      rw [List.getD_eq_getElem clusters [] hi] at hlen
      exact hlen
    unfold updateCentroids
    rw [List.getD_eq_getElem _ [] (by rw [List.length_map]; exact hizip),
      List.getElem_map, List.getElem_zip, List.getD_eq_getElem cents [] hi2]
    exact if_pos hci

/-- Witness for C5 at the concrete three-entry store. -/
theorem C5_witness :
    (krun storeABC 2 100 ([], initCentroids storeABC 2 (fun i => i))).2 ≤ 100 ∧
      krun storeABC 2 1 ([], initCentroids storeABC 2 (fun i => i)) =
        (((kstep storeABC 2 (initCentroids storeABC 2 (fun i => i))).1,
          (kstep storeABC 2 (initCentroids storeABC 2 (fun i => i))).2.1), 1) ∧
      (updateCentroids [[], [entryA]] [[5], [7]]).1.getD 0 [] =
        ([[5], [7]] : List (List ℚ)).getD 0 [] :=
  ⟨(C5_cluster_iteration_bound storeABC 2).1 _,
   (C5_cluster_iteration_bound storeABC 2).2.1 0
     ([], initCentroids storeABC 2 (fun i => i)) (by decide),
   (C5_cluster_iteration_bound storeABC 2).2.2.2 [[], [entryA]] [[5], [7]] 0
     (by decide) (by decide) (by decide)⟩

/-- C6 counterexample: against the claim, clustering the empty store
with `numClusters = 3 > 0` does not fail with `InsufficientData` (no
such error exists anywhere in the code); it returns the single-element
list containing the empty cluster list. -/
theorem C6_counterexample :
    InMemoryVectorStore.cluster ([] : List Entry) 3 (fun _ => 0) = some [[]] := by
  decide

/-- C6 amended: `cluster` never fails with `InsufficientData`; its only
failure is the `TypeError` (modelled as `none`) hit exactly when
`numClusters = 0` on a non-empty store, and on an empty store with
`numClusters ≥ 1` it returns `[this.vectors]`, i.e. one empty
cluster. -/
theorem C6_cluster_failure_characterization (s : List Entry) (k : ℕ)
    (draws : ℕ → ℕ) :
    (InMemoryVectorStore.cluster s k draws = none ↔ k = 0 ∧ s.length ≠ 0) ∧
      (s.length = 0 → 1 ≤ k →
        InMemoryVectorStore.cluster s k draws = some [[]]) := by
  constructor
  · unfold InMemoryVectorStore.cluster
    by_cases hlt : s.length < k
    · rw [if_pos hlt]
      constructor
      · intro h
        exact absurd h (by simp)
      · rintro ⟨hk0, -⟩
        subst hk0
        exact absurd hlt (by omega)
    · rw [if_neg hlt]
      by_cases hk : k = 0 ∧ s.length ≠ 0
      · rw [if_pos hk]
        simpa using hk
      · rw [if_neg hk]
        constructor
        · intro h
          exact absurd h (by simp)
        · intro h
          exact absurd h hk
  · intro hlen hk
    have hnil : s = [] := List.length_eq_zero.mp hlen
    subst hnil
    unfold InMemoryVectorStore.cluster
    rw [if_pos (by simpa using hk)]

/-- Witness for the amended C6. -/
theorem C6_witness :
    (InMemoryVectorStore.cluster storeABC 0 (fun _ => 0) = none ↔
        (0 = 0 ∧ storeABC.length ≠ 0)) ∧
      InMemoryVectorStore.cluster ([] : List Entry) 2 (fun _ => 0) = some [[]] :=
  ⟨(C6_cluster_failure_characterization storeABC 0 (fun _ => 0)).1,
   (C6_cluster_failure_characterization [] 2 (fun _ => 0)).2 rfl (by omega)⟩

/-- C7: `SimpleRAG.query` builds its context by joining the retrieved
raw contents of the retrieved documents with a blank line in ranked order, calls the
generation provider exactly once (on the prompt built from that
context), and returns the generated text as answer together with
`{id, similarity}` of each retrieved source in the same ranked
(non-increasing similarity) order. -/
theorem C7_rag_query_wiring (embed : String → List ℚ) (gen : String → String)
    (docs : List RagDocument) (embs : List (List ℚ)) (question : String)
    (k : ℕ) :
    (SimpleRAG.query embed gen docs embs question k).generationCalls.length = 1 ∧
      (SimpleRAG.query embed gen docs embs question k).answer =
        gen (SimpleRAG.prompt
          (String.intercalate "\n\n"
            ((SimpleRAG.search embed docs embs question k).map
              (fun d => d.document.content)))
          question) ∧
      (SimpleRAG.query embed gen docs embs question k).sources =
        (SimpleRAG.search embed docs embs question k).map
          (fun d => (d.document.id, d.similarity)) ∧
      List.Pairwise (fun a b : String × ℚ => b.2 ≤ a.2)
        (SimpleRAG.query embed gen docs embs question k).sources := by
  refine ⟨rfl, rfl, rfl, ?_⟩
  show List.Pairwise _ ((SimpleRAG.search embed docs embs question k).map
    (fun d => (d.document.id, d.similarity)))
  exact List.Pairwise.map _ (fun a b h => h)
    (ragSearch_pairwise embed docs embs question k)

/-- C8: cosine similarity is symmetric (for same-dimension vectors of
nonzero norm, as claimed; the proof needs only commutativity of the
pointwise products and of the norm product). -/
theorem C8_cosine_symmetry (a b : List ℚ) (hlen : a.length = b.length)
    (ha : magnitude a ≠ 0) (hb : magnitude b ≠ 0) :
    cosineSimilarity a b = cosineSimilarity b a := by
  unfold cosineSimilarity
  rw [dotProduct_comm, mul_comm]

/-- Witness for C8. -/
theorem C8_witness :
    ([3, 4] : List ℚ).length = ([1, 0] : List ℚ).length ∧
      cosineSimilarity [3, 4] [1, 0] = cosineSimilarity [1, 0] [3, 4] :=
  ⟨rfl, C8_cosine_symmetry [3, 4] [1, 0] rfl (by decide) (by decide)⟩

/-- C9 counterexample: against the claim, the randomness feeding the
centroid initialization is the ambient `Math.random()` stream — there
is no injectable or seedable generator — and the returned partition
depends on that stream.  On `storeXY` with `numClusters = 2`, draws
`0, 1` initialize the centroids to the two distinct vectors, each entry
is its own nearest centroid, both means equal their centroids
(similarity exactly 1), and one pass returns `[[x], [y]]`; draws `0, 0`
initialize both centroids to the `x` vector, both entries land in
cluster 0 (ties go to the lowest index), the recomputed mean is the
half-sum whose similarity to `x` is exactly `144/145 ≈ 0.9931 ≥ 0.99`,
so the very first pass converges and returns the single cluster
`[[x, y]]`.  All square roots taken along both runs are of rational
squares (`1` and `20736/21025`), so the model agrees with exact real
arithmetic — and with IEEE doubles, every comparison having margin
at least `0.003` — at every branch; the program genuinely returns these
two different partitions.  Hence two calls (whose ambient streams
differ) need not agree, and no seed can force them to. -/
theorem C9_counterexample :
    InMemoryVectorStore.cluster storeXY 2 (fun i => i) ≠
      InMemoryVectorStore.cluster storeXY 2 (fun _ => 0) := by
  decide

/-- C9 amended: `cluster` is a deterministic function of the store, of
`numClusters` and of the random index draws it consumes — only the
first `numClusters` draws (mod store size) matter, so two calls
observing identical `Math.random` outputs produce identical
partitions; but the code reads the global `Math.random` with no seed
or injection point, so this equality of draws cannot be forced by a
caller. -/
theorem C9_cluster_deterministic_in_draws (s : List Entry) (k : ℕ)
    (d1 d2 : ℕ → ℕ)
    (h : ∀ i, i < k → d1 i % s.length = d2 i % s.length) :
    InMemoryVectorStore.cluster s k d1 = InMemoryVectorStore.cluster s k d2 := by
  unfold InMemoryVectorStore.cluster
  rw [initCentroids_congr s k d1 d2 h]

/-- Witness for the amended C9: two draw streams that agree modulo the
store size produce the same partition. -/
theorem C9_witness :
    InMemoryVectorStore.cluster storeABC 2 (fun i => i) =
      InMemoryVectorStore.cluster storeABC 2 (fun i => i + 3) :=
  C9_cluster_deterministic_in_draws storeABC 2 (fun i => i) (fun i => i + 3)
    (fun i _ => by
      show i % 3 = (i + 3) % 3
      rw [Nat.add_mod_right])

/-- C10: the metadata stored by `add` is not the caller mapping
unchanged: it is the caller metadata with the key `"text"` bound to
the inserted text (overwriting any caller-supplied `"text"` binding),
the rest of the store is untouched, and search results expose each
matched entry metadata (hence the raw text) verbatim. -/
theorem C10_metadata_text_override (embed : String → List ℚ) (s : List Entry)
    (id text : String) (m : List (String × String)) :
    (InMemoryVectorStore.add embed s id text m).length = s.length + 1 ∧
      (InMemoryVectorStore.add embed s id text m).take s.length = s ∧
      (∃ e : Entry, InMemoryVectorStore.add embed s id text m = s ++ [e] ∧
        e.metadata.lookup "text" = some text ∧
        (∀ key : String, key ≠ "text" → e.metadata.lookup key = m.lookup key) ∧
        (∀ v : String, v ≠ text → e.metadata.lookup "text" ≠ some v)) ∧
      (∀ (q : String) (topk : ℕ) (r : SearchResult),
        r ∈ InMemoryVectorStore.search embed
          (InMemoryVectorStore.add embed s id text m) q topk →
        ∃ e2 ∈ InMemoryVectorStore.add embed s id text m,
          r.id = e2.id ∧ r.metadata = e2.metadata) := by
  refine ⟨?_, ?_, ?_, ?_⟩
  · unfold InMemoryVectorStore.add
    rw [List.length_append]
    rfl
  · unfold InMemoryVectorStore.add
    exact List.take_left s _
  · refine ⟨_, rfl, ?_, ?_, ?_⟩
    · simp [List.lookup]
    · intro key hkey
      have hk2 : (key == "text") = false := beq_eq_false_iff_ne.mpr hkey
      simp [List.lookup, hk2]
    · intro v hv hcontra
      simp [List.lookup] at hcontra
      exact hv hcontra.symm
  · intro q topk r hr
    rcases mem_search_imp embed _ q topk r hr with ⟨e2, he2, hid, -, hmeta, -⟩
    exact ⟨e2, he2, hid, hmeta⟩

/-- Witness for C10: a caller-supplied `"text"` binding is overwritten
and other keys survive. -/
theorem C10_witness :
    ∃ e : Entry,
      InMemoryVectorStore.add embedUnit [] "a" "hello"
          [("text", "caller"), ("k", "v")] = [] ++ [e] ∧
        e.metadata.lookup "text" = some "hello" ∧
        e.metadata.lookup "k" = some "v" ∧
        e.metadata.lookup "text" ≠ some "caller" := by
  obtain ⟨-, -, ⟨e, heq, htext, hother, hnot⟩, -⟩ :=
    C10_metadata_text_override embedUnit [] "a" "hello"
      [("text", "caller"), ("k", "v")]
  refine ⟨e, heq, htext, ?_, hnot "caller" (by decide)⟩
  rw [hother "k" (by decide)]
  rfl
